import Mathlib

/-!
Verification of the DAPR configuration validator.

This development shallowly embeds the analysis passes of
`plugins/dapr/scripts/dependency-analyzer.py`,
`plugins/dapr/scripts/validate-config.py` and
`plugins/dapr/tests/validators.py` as executable Lean functions and
proves or refutes the specification claims about them.

Conventions of the embedding:
* Python `str` is Lean `String`; the handful of string primitives the
  scripts use (`in`, `.lower()`, `.startswith`, `.endswith`, slicing,
  `.strip()`) are re-implemented below over `List Char` so that closed
  statements reduce in the kernel.
* Python dicts keep insertion order, so they are association lists; sets
  are duplicate-free lists in insertion order.
* Python floats produced by `float(...)` on the decimal literals that occur
  in configuration files are modelled as rationals; `float()` on a
  non-numeric string raises `ValueError`, modelled by `Except`.
* A raised exception is modelled by `Except.error` carrying the kind of
  the exception; message text of findings is elided, each finding keeps
  its structured content (category, severity, component, cycle, ports).
-/

/-! ## String primitives -/

/-- Character-level lowercase, modelling Python `str.lower` on ASCII. -/
def strLower (s : String) : String := ⟨s.data.map Char.toLower⟩

/-- Does `hay` start with `needle` (on character lists)? -/
def listStarts : List Char → List Char → Bool
  | _, [] => true
  | [], _ :: _ => false
  | a :: as, b :: bs => a == b && listStarts as bs

/-- Substring containment, modelling Python `needle in hay`. -/
def listContains : List Char → List Char → Bool
  | [], needle => listStarts [] needle
  | h :: t, needle => listStarts (h :: t) needle || listContains t needle

/-- Substring containment on strings, modelling Python `needle in hay`. -/
def strContains (hay needle : String) : Bool := listContains hay.data needle.data

/-- Modelling Python `hay.startswith(needle)`. -/
def strStarts (hay needle : String) : Bool := listStarts hay.data needle.data

/-- Modelling Python `hay.endswith(needle)`. -/
def strEnds (hay needle : String) : Bool := listStarts hay.data.reverse needle.data.reverse

/-- Modelling the Python slice `s[:-n]`. -/
def strDropEnd (s : String) (n : Nat) : String := ⟨s.data.take (s.data.length - n)⟩

/-- ASCII whitespace test used by `strip`. -/
def isSpaceChar (c : Char) : Bool := c == ' ' || c == '\t' || c == '\n' || c == '\r'

/-- Modelling Python `s.strip()`. -/
def strTrim (s : String) : String :=
  ⟨((s.data.dropWhile isSpaceChar).reverse.dropWhile isSpaceChar).reverse⟩

/-! ## Data model (from the dataclasses of dependency-analyzer.py) -/

/-- One item of a component `spec.metadata` list: a `name`, an optional plain
`value`, and an optional `secretKeyRef` given as its `(name, key)` pair. -/
structure MetaEntry where
  name : String
  value : Option String := none
  secretKeyRef : Option (String × String) := none
deriving DecidableEq

/-- The fields of the `Component` dataclass that the analysis passes read:
the component name, its `spec.type` string, and the list of
`secretKeyRef.name` values extracted from its metadata entries. -/
structure Component where
  name : String
  component_type : String
  secret_refs : List String := []
deriving DecidableEq

/-- Structured content of a finding dict appended to `self.issues` or
`self.warnings`: its `type` tag, `severity` (absent for warnings, modelled
as an empty string), the named component, a detected cycle, the listed
secrets, and a chain depth, each defaulted when the dict lacks the key. -/
structure Finding where
  ftype : String
  severity : String := ""
  component : String := ""
  cycle : List String := []
  secrets : List String := []
  depth : Nat := 0
deriving DecidableEq

/-! ## validators.py: SECRET_FIELD_PATTERNS and validate_secret_handling -/

/-- The `SECRET_FIELD_PATTERNS` constant of `tests/validators.py`, verbatim
including its camel-case entries. -/
def SECRET_FIELD_PATTERNS : List String :=
  ["password", "secret", "key", "token", "credential", "masterKey",
   "accessKey", "connectionString", "apiKey", "clientId", "clientSecret"]

/-- Embedding of `validate_secret_handling` from `tests/validators.py`:
the entry name is lowercased, each raw pattern is tested for substring
containment, and a populated plain value is flagged unless it starts with
a dollar sign or two opening braces. Returns the names of flagged fields. -/
def validate_secret_handling (metadata : List MetaEntry) : List String :=
  metadata.foldl (fun issues entry =>
    let nameL := strLower entry.name
    let has_value := entry.value.isSome
    let has_secret_ref := entry.secretKeyRef.isSome
    let is_secret_field := SECRET_FIELD_PATTERNS.any (fun p => strContains nameL p)
    if is_secret_field && has_value && !has_secret_ref then
      let v := entry.value.getD ""
      if !(v == "") && !(strStarts v "$") && !(strStarts v "\x7b\x7b") then
        issues ++ [entry.name]
      else issues
    else issues) []

/-! ## dependency-analyzer.py: graph construction -/

/-- Embedding of the secret-store test of `_build_dependency_graph` and
`_validate_secret_references`: `"secretstores" in comp.component_type.lower()`. -/
def isSecretStore (c : Component) : Bool :=
  strContains (strLower c.component_type) "secretstores"

/-- The keys of the `secret_stores` dict, in component insertion order. -/
def secretStoreNames (components : List Component) : List String :=
  (components.filter isSecretStore).map Component.name

/-- Embedding of `_build_dependency_graph`: for every component and every one
of its `secret_refs`, an edge is added to every discovered secret store
(the loop over `secret_stores` ignores the reference itself). Returns the
list of `add_edge` calls in execution order. -/
def buildDependencyGraph (components : List Component) : List (String × String) :=
  components.flatMap (fun c =>
    c.secret_refs.flatMap (fun _ =>
      (secretStoreNames components).map (fun s => (c.name, s))))

/-- Adjacency derived from an edge list with set semantics: duplicates are
kept once, in first-insertion order, modelling `defaultdict(set)`. -/
def graphDeps (edges : List (String × String)) (n : String) : List String :=
  ((edges.filter (fun e => e.1 == n)).map Prod.snd).eraseDups

/-! ## dependency-analyzer.py: _detect_circular_dependencies

The inner `dfs` mutates three closure variables (`visited`, `rec_stack`,
`cycles`) and the `path` list it receives; on returning `True` it skips the
`path.pop()` / `rec_stack.remove(node)` cleanup.  `path.index(neighbor)`
raises `ValueError` when the neighbor is absent from the current path, and
no frame of the analyzer catches that exception. -/

/-- The closure state of the DFS of `_detect_circular_dependencies`. -/
structure DfsState where
  visited : List String
  recStack : List String
  cycles : List (List String)
deriving DecidableEq

mutual

/-- Embedding of one call `dfs(node, path)`: marks the node visited and on
the recursion stack, appends it to the path, then iterates its neighbors.
The fuel only bounds recursion depth; `Except.error` carries the kind of a
raised exception. -/
def dfsVisit (deps : String → List String) (fuel : Nat) (node : String)
    (path : List String) (st : DfsState) :
    Except String (Bool × List String × DfsState) :=
  match fuel with
  | 0 => .error "fuel"
  | Nat.succ f =>
      let st1 : DfsState :=
        { st with visited := node :: st.visited, recStack := node :: st.recStack }
      dfsNeighbors deps f (deps node) node (path ++ [node]) st1

/-- Embedding of the `for neighbor in ...` loop body of `dfs`: an unvisited
neighbor is recursed into (propagating `True`), a neighbor on the recursion
stack closes a cycle located with `path.index` (raising `ValueError` when it
is not on the current path), and loop exhaustion pops the path and removes
the node from the recursion stack before returning `False`. -/
def dfsNeighbors (deps : String → List String) (fuel : Nat) (ns : List String)
    (node : String) (path : List String) (st : DfsState) :
    Except String (Bool × List String × DfsState) :=
  match fuel with
  | 0 => .error "fuel"
  | Nat.succ f =>
      match ns with
      | [] => .ok (false, path.dropLast, { st with recStack := st.recStack.erase node })
      | n :: rest =>
          if st.visited.contains n then
            if st.recStack.contains n then
              match path.findIdx? (fun x => x == n) with
              | none => .error "ValueError"
              | some i =>
                  .ok (true, path, { st with cycles := st.cycles ++ [path.drop i ++ [n]] })
            else dfsNeighbors deps f rest node path st
          else
            match dfsVisit deps f n path st with
            | .error e => .error e
            | .ok (true, p2, st2) => .ok (true, p2, st2)
            | .ok (false, p2, st2) => dfsNeighbors deps f rest node p2 st2

end

/-- Embedding of the outer `for node in self.graph.nodes` loop: each
unvisited node gets a fresh empty path, while `visited`, `rec_stack` and
`cycles` persist across iterations. -/
def detectLoop (deps : String → List String) (fuel : Nat) :
    List String → DfsState → Except String DfsState
  | [], st => .ok st
  | n :: rest, st =>
      if st.visited.contains n then detectLoop deps fuel rest st
      else
        match dfsVisit deps fuel n [] st with
        | .error e => .error e
        | .ok (_, _, st2) => detectLoop deps fuel rest st2

/-- Embedding of `_detect_circular_dependencies`: runs the DFS from every
node and then converts each recorded cycle into a severity-error finding of
category `circular_dependency`. -/
def detect_circular_dependencies (nodes : List String) (deps : String → List String) :
    Except String (List Finding) :=
  match detectLoop deps (nodes.length + 1) nodes ⟨[], [], []⟩ with
  | .error e => .error e
  | .ok st => .ok (st.cycles.map (fun cyc =>
      { ftype := "circular_dependency", severity := "error", cycle := cyc }))

/-- The graph-analysis prefix of `DependencyAnalyzer.analyze`: build the
dependency graph from the parsed components, then run the circular
dependency detection (the first analysis pass). -/
def analyzeGraphPhase (components : List Component) : Except String (List Finding) :=
  let edges := buildDependencyGraph components
  detect_circular_dependencies (components.map Component.name) (graphDeps edges)

/-- Association-list adjacency used to state claims about explicitly given
graphs: the neighbor list recorded for `n`, or `[]` when absent. -/
def adjOf (adj : List (String × List String)) (n : String) : List String :=
  match adj.find? (fun p => p.1 == n) with
  | some p => p.2
  | none => []

/-! ## dependency-analyzer.py: _validate_secret_references -/

/-- The per-component body of `_validate_secret_references`, with the
emptiness of the `secret_stores` set precomputed: secret stores are skipped,
a component with secret references gets a severity-error
`missing_secret_store` finding when no store exists, and otherwise a
`secret_ref_check` warning listing its secrets. -/
def vsrLoop (storesEmpty : Bool) : List Component → List Finding × List Finding
  | [] => ([], [])
  | c :: rest =>
      let (is_, ws) := vsrLoop storesEmpty rest
      if isSecretStore c then (is_, ws)
      else if !c.secret_refs.isEmpty && storesEmpty then
        ({ ftype := "missing_secret_store", severity := "error",
           component := c.name } :: is_, ws)
      else if !c.secret_refs.isEmpty then
        (is_, { ftype := "secret_ref_check", component := c.name,
                secrets := c.secret_refs } :: ws)
      else (is_, ws)

/-- Embedding of `_validate_secret_references`: returns the
`(issues, warnings)` pair it appends. -/
def validate_secret_references (components : List Component) :
    List Finding × List Finding :=
  vsrLoop (secretStoreNames components).isEmpty components

/-! ## dependency-analyzer.py: _parse_component_file (registration step) -/

/-- Association-list lookup, modelling Python dict indexing. -/
def alistLookup {α β : Type} [BEq α] : List (α × β) → α → Option β
  | [], _ => none
  | (k, v) :: rest, k' => if k == k' then some v else alistLookup rest k'

/-- Association-list assignment `m[k] = v`, modelling Python dict update:
an existing key keeps its position and gets the new value, a new key is
appended at the end. -/
def dictInsert {α β : Type} [BEq α] (m : List (α × β)) (k : α) (v : β) : List (α × β) :=
  if m.any (fun p => p.1 == k) then
    m.map (fun p => if p.1 == k then (k, v) else p)
  else m ++ [(k, v)]

/-- The fields `_parse_component_file` reads from a successfully decoded
component YAML document: `kind`, `metadata.name`, `spec.type`,
`spec.version` (each `none` when the key is missing) and the
`spec.metadata` list. -/
structure RawComponent where
  kind : Option String := none
  name : Option String := none
  ctype : Option String := none
  version : Option String := none
  specMetadata : List MetaEntry := []
deriving DecidableEq

/-- The secret-reference extraction of `_parse_component_file`: every entry
with a non-empty `secretKeyRef` contributes that reference's `name`. -/
def extractSecretRefs (metadata : List MetaEntry) : List String :=
  metadata.filterMap (fun item => item.secretKeyRef.map Prod.fst)

/-- The `Component` value `_parse_component_file` constructs from a decoded
document with the given non-empty name. -/
def builtComponent (c : RawComponent) (name : String) : Component :=
  { name := name, component_type := c.ctype.getD "unknown",
    secret_refs := extractSecretRefs c.specMetadata }

/-- The analyzer state `_parse_component_file` updates: the `self.components`
dict and the `self.warnings` list (`self.issues` is never touched during
parsing of a well-formed file). -/
structure AnalyzerState where
  components : List (String × Component)
  warnings : List Finding
deriving DecidableEq

/-- Embedding of `_parse_component_file` on a successfully decoded document:
documents whose `kind` is not `Component` or whose name is missing or empty
are silently skipped; otherwise the component is assigned into the dict,
with no duplicate check of any sort. -/
def parse_component_file (st : AnalyzerState) (content : RawComponent) : AnalyzerState :=
  if content.kind != some "Component" then st
  else
    let name := content.name.getD ""
    if name == "" then st
    else { st with components := dictInsert st.components name (builtComponent content name) }

/-! ## Exit codes of the two entry points -/

/-- Finding shape used by `validate-config.py`: its `ValidationError` class
with the source file, a structured stand-in for the message, the severity
(default `error`), and the port a duplicate-port message names. -/
structure ValidationError where
  file : String
  tag : String
  severity : String := "error"
  port : Nat := 0
deriving DecidableEq

/-- Embedding of the exit-code logic of `dependency-analyzer.py`'s `main`:
under `--strict`, exit 1 when issues exist or (under
`--warnings-as-errors`) warnings exist; otherwise exit 0. -/
def analyzer_exit_code (strict warnings_as_errors : Bool)
    (issues warnings : List Finding) : Nat :=
  if strict && (!issues.isEmpty || (warnings_as_errors && !warnings.isEmpty)) then 1
  else 0

/-- Embedding of the exit-code logic of `validate-config.py`'s `main`: exit 1
whenever any collected finding has severity `error`; there is no strictness
flag. -/
def validate_config_exit_code (all_errors : List ValidationError) : Nat :=
  if (all_errors.filter (fun e => e.severity == "error")).isEmpty then 0 else 1

/-! ## validators.py: parse_memory and validate_resource_quotas -/

/-- Decimal value of a digit list. -/
def natVal (l : List Char) : Nat := l.foldl (fun acc c => acc * 10 + (c.toNat - 48)) 0

/-- Modelling Python `float(s)` on the plain decimal literals that occur in
configuration values: an optional sign, an integer part and an optional
fractional part (exponent and underscore forms do not occur there).
Returns `none` where `float` raises `ValueError`. -/
def parseFloatQ (s : String) : Option ℚ :=
  let step := fun (cs : List Char) (sign : ℚ) =>
    let ip := cs.takeWhile Char.isDigit
    let rest := cs.dropWhile Char.isDigit
    match rest with
    | [] => if ip.isEmpty then none else some (sign * (natVal ip : ℚ))
    | '.' :: frac =>
        if frac.all Char.isDigit && !(ip.isEmpty && frac.isEmpty) then
          some (sign * ((natVal ip : ℚ) + (natVal frac : ℚ) / (10 : ℚ) ^ frac.length))
        else none
    | _ => none
  match s.data with
  | '-' :: cs => step cs (-1)
  | '+' :: cs => step cs 1
  | cs => step cs 1

/-- Python `float(s)` as an exception-carrying computation. -/
def floatOrErr (s : String) : Except String ℚ :=
  match parseFloatQ s with
  | some v => .ok v
  | none => .error "ValueError"

/-- Embedding of `parse_memory` from `tests/validators.py`. The result is in
GiB, per its suffix table; only the final plain-number branch catches
`ValueError` (returning 0.0), so an invalid value carrying a recognized
suffix propagates the exception. -/
def parse_memory (s : String) : Except String ℚ :=
  if s == "" then .ok 0
  else
    let t := strTrim s
    if strEnds t "Gi" then floatOrErr (strDropEnd t 2)
    else if strEnds t "Mi" then (floatOrErr (strDropEnd t 2)).map (· / 1024)
    else if strEnds t "Ki" then (floatOrErr (strDropEnd t 2)).map (· / (1024 * 1024))
    else if strEnds t "G" then floatOrErr (strDropEnd t 1)
    else if strEnds t "M" then (floatOrErr (strDropEnd t 1)).map (· / 1024)
    else
      match parseFloatQ t with
      | some v => .ok v
      | none => .ok 0

/-- One app entry of `dapr.yaml`, with the fields the validators read.
`appId` is `none` when the key is missing; `cpu` is `none` when
`resources.cpu` is missing or falsy; `memory` is `""` when missing
(`resources.get("memory", "")`); `maxReplicas` carries the default 10 of
`scale.get("maxReplicas", 10)`; the sidecar ports carry their 3500/50001
defaults. -/
structure AppSpec where
  appId : Option String := none
  appPort : Option Nat := none
  daprHTTPPort : Nat := 3500
  daprGRPCPort : Nat := 50001
  cpu : Option String := none
  memory : String := ""
  maxReplicas : Nat := 10
deriving DecidableEq

/-- Structured stand-in for one quota message of `validate_resource_quotas`. -/
structure QuotaIssue where
  tag : String
  app : String
deriving DecidableEq

/-- The `cpu_max` entry of the platform limits table. -/
def platformCpuMax (target : String) : ℚ := if target == "container-apps" then 4 else 8

/-- The `memory_max_gi` entry of the platform limits table. -/
def platformMemMaxGi (target : String) : ℚ := if target == "container-apps" then 8 else 32

/-- The `max_replicas` entry of the platform limits table. -/
def platformMaxReplicas (target : String) : Nat :=
  if target == "container-apps" then 300 else 1000

/-- The per-app loop of `validate_resource_quotas`: the CPU check catches its
`ValueError` and passes, the memory check calls `parse_memory` unprotected,
and the replica check compares against the platform maximum. -/
def vrqLoop (cpuMax memMax : ℚ) (maxRep : Nat) : List AppSpec → Except String (List QuotaIssue)
  | [] => .ok []
  | app :: rest =>
      let appId := app.appId.getD "unknown"
      let cpuIssues :=
        match app.cpu with
        | none => []
        | some c =>
            match parseFloatQ c with
            | none => []
            | some v => if cpuMax < v then [QuotaIssue.mk "cpu_exceeds_limit" appId] else []
      match (if app.memory == "" then Except.ok [] else
              (parse_memory app.memory).map (fun mv =>
                if memMax < mv then [QuotaIssue.mk "memory_exceeds_limit" appId] else [])) with
      | .error e => .error e
      | .ok memIssues =>
          let repIssues :=
            if maxRep < app.maxReplicas then [QuotaIssue.mk "max_replicas_exceeds_limit" appId]
            else []
          match vrqLoop cpuMax memMax maxRep rest with
          | .error e => .error e
          | .ok tail => .ok (cpuIssues ++ memIssues ++ repIssues ++ tail)

/-- Embedding of `validate_resource_quotas` from `tests/validators.py`. -/
def validate_resource_quotas (apps : List AppSpec) (target : String) :
    Except String (List QuotaIssue) :=
  vrqLoop (platformCpuMax target) (platformMemMaxGi target) (platformMaxReplicas target) apps

/-! ## validators.py: validate_port_conflicts -/

/-- The `RESERVED_PORTS` constant of `tests/validators.py`. -/
def RESERVED_PORTS : List Nat := [3500, 50001, 9090, 8080, 8443]

/-- Structured stand-in for the messages of `validate_port_conflicts`:
a reserved `appPort`, a custom sidecar port clashing with a recorded app
port, or a port claimed by several apps. -/
inductive PortIssue
  | reserved (appId : String) (port : Nat)
  | daprConflict (appId : String) (portType : String) (port : Nat)
  | duplicate (port : Nat) (apps : List String)
deriving DecidableEq

/-- `port_usage` update: `port_usage[port].append(app_id)` when the key
exists, otherwise `port_usage[port] = [app_id]`. -/
def assocAppend (u : List (Nat × List String)) (k : Nat) (v : String) :
    List (Nat × List String) :=
  match u with
  | [] => [(k, [v])]
  | (k', vs) :: rest =>
      if k' == k then (k', vs ++ [v]) :: rest else (k', vs) :: assocAppend rest k v

/-- The custom-sidecar-port check of `validate_port_conflicts`: ports other
than the 3500/50001 defaults are tested against the recorded app ports. -/
def dcheck (usage : List (Nat × List String)) (issues : List PortIssue)
    (appId ptype : String) (port : Nat) : List PortIssue :=
  if !(port == 3500) && !(port == 50001) then
    if usage.any (fun p => p.1 == port) then issues ++ [.daprConflict appId ptype port]
    else issues
  else issues

/-- The per-app loop of `validate_port_conflicts`: record the `appPort` in
`port_usage`, flag it when reserved, then test both sidecar ports. -/
def vpcLoop : List AppSpec → List (Nat × List String) → List PortIssue →
    List (Nat × List String) × List PortIssue
  | [], usage, issues => (usage, issues)
  | app :: rest, usage, issues =>
      let appId := app.appId.getD "unknown"
      let (usage1, issues1) :=
        match app.appPort with
        | none => (usage, issues)
        | some port =>
            (assocAppend usage port appId,
             if RESERVED_PORTS.contains port then issues ++ [.reserved appId port]
             else issues)
      let issues2 := dcheck usage1 issues1 appId "daprHTTPPort" app.daprHTTPPort
      let issues3 := dcheck usage1 issues2 appId "daprGRPCPort" app.daprGRPCPort
      vpcLoop rest usage1 issues3

/-- Embedding of `validate_port_conflicts` from `tests/validators.py`: run
the per-app loop, then report every port claimed by more than one app. -/
def validate_port_conflicts (apps : List AppSpec) : List PortIssue :=
  let (usage, issues) := vpcLoop apps [] []
  issues ++ (usage.filter (fun p => 1 < p.2.length)).map (fun p => .duplicate p.1 p.2)

/-- The apps claiming `appPort = p`, in manifest order — the reference
value for the contents of `port_usage[p]`. -/
def claimants (p : Nat) (apps : List AppSpec) : List String :=
  apps.filterMap (fun a =>
    if a.appPort == some p then some (a.appId.getD "unknown") else none)

/-! ## validate-config.py: validate_dapr_yaml -/

/-- The fields of a decoded `dapr.yaml` that `validate_dapr_yaml` reads. -/
structure DaprYaml where
  hasVersion : Bool := true
  apps : List AppSpec := []
deriving DecidableEq

/-- The per-app loop of `validate_dapr_yaml`: missing or duplicate `appId`
is a severity-error finding, a duplicate `appPort` is a severity-warning
finding. -/
def vdyLoop : List AppSpec → List String → List Nat → List ValidationError
  | [], _, _ => []
  | app :: rest, seenIds, seenPorts =>
      let (idErrs, seenIds1) :=
        match app.appId with
        | none => ([ValidationError.mk "dapr.yaml" "missing_appId" "error" 0], seenIds)
        | some i =>
            if seenIds.contains i then
              ([ValidationError.mk "dapr.yaml" "duplicate_appId" "error" 0], seenIds)
            else ([], seenIds ++ [i])
      let (portErrs, seenPorts1) :=
        match app.appPort with
        | none => ([], seenPorts)
        | some p =>
            if seenPorts.contains p then
              ([ValidationError.mk "dapr.yaml" "duplicate_port" "warning" p], seenPorts)
            else ([], seenPorts ++ [p])
      idErrs ++ portErrs ++ vdyLoop rest seenIds1 seenPorts1

/-- Embedding of `validate_dapr_yaml` from `validate-config.py`. -/
def validate_dapr_yaml (y : DaprYaml) : List ValidationError :=
  let vIssues :=
    if y.hasVersion then [] else [ValidationError.mk "dapr.yaml" "missing_version" "error" 0]
  if y.apps.isEmpty then vIssues ++ [ValidationError.mk "dapr.yaml" "no_apps" "error" 0]
  else vIssues ++ vdyLoop y.apps [] []

/-! ## dependency-analyzer.py: _analyze_component_chains -/

/-- Embedding of `get_chain_depth`: fuel bounds the recursion depth (the
fuel-independence theorem below shows any sufficiently large fuel gives the
same value, which is the termination argument for the Python recursion).
Passing `node :: visited` to each branch models `visited.copy()`. -/
def get_chain_depth (deps : String → List String) : Nat → String → List String → Nat
  | 0, _, _ => 0
  | Nat.succ f, node, visited =>
      if node ∈ visited then 0
      else
        let ds := deps node
        if ds = [] then 1
        else 1 + (ds.map (fun d => get_chain_depth deps f d (node :: visited))).foldl max 0

/-- The `deep_dependency_chain` warning recorded for a node. -/
def deepChainFinding (n : String) (d : Nat) : Finding :=
  { ftype := "deep_dependency_chain", component := n, depth := d }

/-- Embedding of `_analyze_component_chains`: compute the chain depth of
every node starting from an empty visited set and warn when it exceeds 3. -/
def analyze_component_chains (nodes : List String) (deps : String → List String)
    (fuel : Nat) : List Finding :=
  (nodes.map (fun n => (n, get_chain_depth deps fuel n []))).filterMap (fun p =>
    if 3 < p.2 then some (deepChainFinding p.1 p.2) else none)

/-! ## Concrete projects and graphs used in the closed statements -/

/-- A component referencing the store `vault`, next to two secret stores
that it does not reference. -/
def fanoutComps : List Component :=
  [{ name := "app-db", component_type := "state.redis", secret_refs := ["vault"] },
   { name := "store-one", component_type := "secretstores.local.file" },
   { name := "store-two", component_type := "secretstores.local.file" }]

/-- A graph with a 2-cycle `a-b` and a 3-cycle `a-c-d` sharing the node `a`. -/
def overlapAdj : List (String × List String) :=
  [("a", ["b", "c"]), ("b", ["a"]), ("c", ["d"]), ("d", ["a"])]

/-- The nodes of `overlapAdj` in insertion order. -/
def overlapNodes : List String := ["a", "b", "c", "d"]

/-- A well-formed project whose graph makes the analyzer raise: one secret
store with a secret reference (hence a self-loop by fan-out), a second
store, and an ordinary component with a secret reference. -/
def crashComps : List Component :=
  [{ name := "s-one", component_type := "secretstores.local.file", secret_refs := ["somekey"] },
   { name := "s-two", component_type := "secretstores.local.file" },
   { name := "appcomp", component_type := "state.redis", secret_refs := ["somekey"] }]

/-- A project with one secret store and a component whose secret reference
names a store that does not exist. -/
def danglingComps : List Component :=
  [{ name := "vault", component_type := "secretstores.local.file" },
   { name := "db", component_type := "state.redis", secret_refs := ["other-vault"] }]

/-- First of two decoded component files sharing the name `store`. -/
def dupFileA : RawComponent :=
  { kind := some "Component", name := some "store", ctype := some "state.redis" }

/-- Second of two decoded component files sharing the name `store`. -/
def dupFileB : RawComponent :=
  { kind := some "Component", name := some "store", ctype := some "pubsub.redis" }

/-- A decoded `dapr.yaml` with a duplicated `appId`. -/
def dupIdYaml : DaprYaml :=
  { apps := [{ appId := some "svc-a" }, { appId := some "svc-a" }] }

/-- A decoded `dapr.yaml` with two apps both claiming `appPort` 8080. -/
def conflictYaml : DaprYaml :=
  { apps := [{ appId := some "svc-a", appPort := some 8080 },
             { appId := some "svc-b", appPort := some 8080 }] }

/-- A decoded `dapr.yaml` with two apps both claiming the non-reserved
`appPort` 9999. -/
def dupPortYaml : DaprYaml :=
  { apps := [{ appId := some "svc-a", appPort := some 9999 },
             { appId := some "svc-b", appPort := some 9999 }] }

/-- The apps of `conflictYaml` as seen by the validators module. -/
def conflictApps : List AppSpec :=
  [{ appId := some "svc-a", appPort := some 8080 },
   { appId := some "svc-b", appPort := some 8080 }]

/-- The apps of `dupPortYaml` as seen by the validators module. -/
def dupPortApps : List AppSpec :=
  [{ appId := some "svc-a", appPort := some 9999 },
   { appId := some "svc-b", appPort := some 9999 }]

/-- Apps where a custom sidecar port clashes with a recorded app port. -/
def dconfApps : List AppSpec :=
  [{ appId := some "app-a", appPort := some 7001 },
   { appId := some "app-b", daprHTTPPort := 7001 }]

/-- An app whose `resources.memory` is the plain number `512`. -/
def bigApp : AppSpec := { appId := some "big", memory := "512" }

/-- A small graph with a self-loop on `w-a`, a 2-cycle `w-a`/`w-b` and the
sink `w-leaf`. -/
def chainAdjW : List (String × List String) :=
  [("w-a", ["w-b", "w-a"]), ("w-b", ["w-a", "w-leaf"]), ("w-leaf", [])]

/-- The node universe of `chainAdjW`. -/
def chainUnivW : List String := ["w-a", "w-b", "w-leaf"]

/-! ## Theorems -/

/-! ### Port-conflict lemmas (validators.py) -/

/-- The sidecar-port check never adds a reserved-port issue. -/
theorem reserved_mem_dcheck (u : List (Nat × List String)) (i : List PortIssue)
    (id t : String) (q : Nat) (a : String) (p : Nat) :
    PortIssue.reserved a p ∈ dcheck u i id t q ↔ PortIssue.reserved a p ∈ i := by
  unfold dcheck
  split
  · split
    · simp
    · exact Iff.rfl
  · exact Iff.rfl

/-- The sidecar-port check never adds a duplicate-port issue. -/
theorem duplicate_mem_dcheck (u : List (Nat × List String)) (i : List PortIssue)
    (id t : String) (q : Nat) (p : Nat) (ids : List String) :
    PortIssue.duplicate p ids ∈ dcheck u i id t q ↔ PortIssue.duplicate p ids ∈ i := by
  unfold dcheck
  split
  · split
    · simp
    · exact Iff.rfl
  · exact Iff.rfl

/-- A conflict issue produced by the sidecar-port check concerns a port
other than the 3500/50001 defaults. -/
theorem daprConflict_mem_dcheck (u : List (Nat × List String)) (i : List PortIssue)
    (id t : String) (q : Nat) (a t' : String) (p : Nat)
    (h : PortIssue.daprConflict a t' p ∈ dcheck u i id t q) :
    PortIssue.daprConflict a t' p ∈ i ∨ (p ≠ 3500 ∧ p ≠ 50001) := by
  unfold dcheck at h
  split at h
  · rename_i hq
    split at h
    · rcases List.mem_append.mp h with h' | h'
      · exact Or.inl h'
      · simp only [List.mem_singleton] at h'
        obtain ⟨rfl, rfl, rfl⟩ := PortIssue.daprConflict.inj h'
        simp only [Bool.and_eq_true, Bool.not_eq_true', beq_eq_false_iff_ne] at hq
        exact Or.inr hq
    · exact Or.inl h
  · exact Or.inl h

/-- A reserved-port issue is accumulated by the app loop exactly for an app
whose `appPort` lies in the reserved set. -/
theorem reserved_mem_vpcLoop (apps : List AppSpec) :
    ∀ (usage : List (Nat × List String)) (issues : List PortIssue) (a : String) (p : Nat),
    (PortIssue.reserved a p ∈ (vpcLoop apps usage issues).2) ↔
      (PortIssue.reserved a p ∈ issues ∨
        ∃ app ∈ apps, app.appId.getD "unknown" = a ∧ app.appPort = some p ∧
          p ∈ RESERVED_PORTS) := by
  induction apps with
  | nil => intro usage issues a p; simp [vpcLoop]
  | cons app rest ih =>
      intro usage issues a p
      cases hap : app.appPort with
      | none =>
          simp only [vpcLoop, hap]
          rw [ih, reserved_mem_dcheck, reserved_mem_dcheck]
          simp [hap]
      | some port =>
          cases hr : RESERVED_PORTS.contains port with
          | true =>
              simp only [vpcLoop, hap, hr, if_true]
              rw [ih, reserved_mem_dcheck, reserved_mem_dcheck]
              have hr' : port ∈ RESERVED_PORTS := List.elem_iff.mp hr
              simp only [List.mem_append, List.mem_cons, List.not_mem_nil, or_false]
              constructor
              · rintro ((h | h) | h)
                · exact Or.inl h
                · obtain ⟨rfl, rfl⟩ := PortIssue.reserved.inj h
                  exact Or.inr ⟨app, Or.inl rfl, rfl, hap, hr'⟩
                · obtain ⟨app', ha', h1, h2, h3⟩ := h
                  exact Or.inr ⟨app', Or.inr ha', h1, h2, h3⟩
              · rintro (h | ⟨app', (rfl | ha'), h1, h2, h3⟩)
                · exact Or.inl (Or.inl h)
                · rw [hap] at h2
                  obtain rfl := Option.some.inj h2
                  exact Or.inl (Or.inr (by rw [h1]))
                · exact Or.inr ⟨app', ha', h1, h2, h3⟩
          | false =>
              simp only [vpcLoop, hap, hr, Bool.false_eq_true, if_false]
              rw [ih, reserved_mem_dcheck, reserved_mem_dcheck]
              simp only [List.mem_cons]
              constructor
              · rintro (h | h)
                · exact Or.inl h
                · obtain ⟨app', ha', h1, h2, h3⟩ := h
                  exact Or.inr ⟨app', Or.inr ha', h1, h2, h3⟩
              · rintro (h | ⟨app', (rfl | ha'), h1, h2, h3⟩)
                · exact Or.inl h
                · rw [hap] at h2
                  obtain rfl := Option.some.inj h2
                  have hc : RESERVED_PORTS.contains port = true := List.elem_iff.mpr h3
                  rw [hc] at hr
                  simp at hr
                · exact Or.inr ⟨app', ha', h1, h2, h3⟩

/-- The app loop itself never accumulates duplicate-port issues (they are
produced afterwards from `port_usage`). -/
theorem duplicate_mem_vpcLoop (apps : List AppSpec) :
    ∀ (usage : List (Nat × List String)) (issues : List PortIssue) (p : Nat)
      (ids : List String),
    (PortIssue.duplicate p ids ∈ (vpcLoop apps usage issues).2) ↔
      PortIssue.duplicate p ids ∈ issues := by
  induction apps with
  | nil => intro usage issues p ids; simp [vpcLoop]
  | cons app rest ih =>
      intro usage issues p ids
      cases hap : app.appPort with
      | none =>
          simp only [vpcLoop, hap]
          rw [ih, duplicate_mem_dcheck, duplicate_mem_dcheck]
      | some port =>
          cases hr : RESERVED_PORTS.contains port with
          | true =>
              simp only [vpcLoop, hap, hr, if_true]
              rw [ih, duplicate_mem_dcheck, duplicate_mem_dcheck]
              simp
          | false =>
              simp only [vpcLoop, hap, hr, Bool.false_eq_true, if_false]
              rw [ih, duplicate_mem_dcheck, duplicate_mem_dcheck]

/-- Any sidecar-conflict issue accumulated by the app loop concerns a port
other than the 3500/50001 defaults. -/
theorem daprConflict_mem_vpcLoop (apps : List AppSpec) :
    ∀ (usage : List (Nat × List String)) (issues : List PortIssue)
      (a t : String) (p : Nat),
    PortIssue.daprConflict a t p ∈ (vpcLoop apps usage issues).2 →
      PortIssue.daprConflict a t p ∈ issues ∨ (p ≠ 3500 ∧ p ≠ 50001) := by
  induction apps with
  | nil => intro usage issues a t p h; exact Or.inl h
  | cons app rest ih =>
      intro usage issues a t p h
      cases hap : app.appPort with
      | none =>
          rw [vpcLoop] at h
          rw [hap] at h
          rcases ih _ _ _ _ _ h with h' | h'
          · rcases daprConflict_mem_dcheck _ _ _ _ _ _ _ _ h' with h'' | h''
            · rcases daprConflict_mem_dcheck _ _ _ _ _ _ _ _ h'' with h3 | h3
              · exact Or.inl h3
              · exact Or.inr h3
            · exact Or.inr h''
          · exact Or.inr h'
      | some port =>
          rw [vpcLoop] at h
          rw [hap] at h
          rcases ih _ _ _ _ _ h with h' | h'
          · rcases daprConflict_mem_dcheck _ _ _ _ _ _ _ _ h' with h'' | h''
            · rcases daprConflict_mem_dcheck _ _ _ _ _ _ _ _ h'' with h3 | h3
              · cases hr : RESERVED_PORTS.contains port with
                | true =>
                    rw [hr] at h3
                    simp only [if_true] at h3
                    rcases List.mem_append.mp h3 with h4 | h4
                    · exact Or.inl h4
                    · simp at h4
                | false =>
                    rw [hr] at h3
                    simp only [Bool.false_eq_true, if_false] at h3
                    exact Or.inl h3
              · exact Or.inr h3
            · exact Or.inr h''
          · exact Or.inr h'

/-- Lookup after a `port_usage` update: the updated key holds its previous
list extended by the new app id, other keys are untouched. -/
theorem alistLookup_assocAppend (u : List (Nat × List String)) (k : Nat) (v : String) :
    ∀ k', alistLookup (assocAppend u k v) k' =
      if k' = k then some ((alistLookup u k).getD [] ++ [v]) else alistLookup u k' := by
  induction u with
  | nil =>
      intro k'
      by_cases h : k' = k
      · simp [assocAppend, alistLookup, h]
      · have hb : (k == k') = false := beq_eq_false_iff_ne.mpr (fun hh => h hh.symm)
        simp [assocAppend, alistLookup, h, hb]
  | cons q rest ih =>
      intro k'
      obtain ⟨k₀, vs⟩ := q
      by_cases h0 : k₀ = k
      · subst h0
        simp only [assocAppend, beq_self_eq_true, if_true]
        by_cases h : k' = k₀
        · subst h
          simp [alistLookup]
        · have hb : (k₀ == k') = false := beq_eq_false_iff_ne.mpr (fun hh => h hh.symm)
          simp [alistLookup, h, hb]
      · have hb : (k₀ == k) = false := beq_eq_false_iff_ne.mpr h0
        simp only [assocAppend, hb, Bool.false_eq_true, if_false]
        by_cases h : k' = k
        · subst h
          have hb2 : (k₀ == k') = false := beq_eq_false_iff_ne.mpr h0
          simp [alistLookup, hb2, ih]
        · by_cases h2 : k₀ = k'
          · subst h2
            simp [alistLookup, h, ih]
          · have hb2 : (k₀ == k') = false := beq_eq_false_iff_ne.mpr h2
            simp [alistLookup, hb2, ih, h]

/-- A `port_usage` update preserves the key list, appending the key only
when it is new. -/
theorem keys_assocAppend (u : List (Nat × List String)) (k : Nat) (v : String) :
    (assocAppend u k v).map Prod.fst =
      if u.any (fun p => p.1 == k) then u.map Prod.fst else u.map Prod.fst ++ [k] := by
  induction u with
  | nil => simp [assocAppend]
  | cons q rest ih =>
      obtain ⟨k₀, vs⟩ := q
      by_cases h0 : k₀ = k
      · subst h0
        simp [assocAppend]
      · have hb : (k₀ == k) = false := beq_eq_false_iff_ne.mpr h0
        simp only [assocAppend, hb, Bool.false_eq_true, if_false, List.map_cons,
          List.any_cons, Bool.false_or, ih]
        cases h : rest.any (fun p => p.1 == k) <;> simp

/-- A `port_usage` update keeps the keys duplicate-free. -/
theorem nodup_keys_assocAppend (u : List (Nat × List String)) (k : Nat) (v : String)
    (h : (u.map Prod.fst).Nodup) : ((assocAppend u k v).map Prod.fst).Nodup := by
  rw [keys_assocAppend]
  cases ha : u.any (fun p => p.1 == k) with
  | true => simpa using h
  | false =>
      simp only [Bool.false_eq_true, if_false]
      have hk : k ∉ u.map Prod.fst := by
        intro hmem
        obtain ⟨p, hp, hpk⟩ := List.mem_map.mp hmem
        have : u.any (fun p => p.1 == k) = true :=
          List.any_eq_true.mpr ⟨p, hp, by simp [hpk]⟩
        rw [this] at ha
        cases ha
      simp [List.nodup_append, h, hk]

/-- In a dict with duplicate-free keys, membership of a pair is lookup. -/
theorem mem_iff_alistLookup (u : List (Nat × List String))
    (h : (u.map Prod.fst).Nodup) (p : Nat) (ids : List String) :
    (p, ids) ∈ u ↔ alistLookup u p = some ids := by
  induction u with
  | nil => simp [alistLookup]
  | cons q rest ih =>
      obtain ⟨k₀, vs⟩ := q
      simp only [List.map_cons, List.nodup_cons] at h
      by_cases hq : k₀ = p
      · subst hq
        have hnotin : (k₀, ids) ∉ rest := by
          intro hmem
          exact h.1 (List.mem_map.mpr ⟨(k₀, ids), hmem, rfl⟩)
        simp only [alistLookup, beq_self_eq_true, if_true, List.mem_cons]
        constructor
        · rintro (heq | hmem)
          · simp only [Prod.mk.injEq] at heq
            rw [heq.2]
          · exact absurd hmem hnotin
        · intro hsome
          exact Or.inl (by simp [Option.some.inj hsome])
      · have hb : (k₀ == p) = false := beq_eq_false_iff_ne.mpr hq
        simp only [alistLookup, hb, Bool.false_eq_true, if_false, List.mem_cons]
        rw [← ih h.2]
        constructor
        · rintro (heq | hmem)
          · simp only [Prod.mk.injEq] at heq
            exact absurd heq.1.symm hq
          · exact hmem
        · exact Or.inr

/-- The final `port_usage` maps each port to the previously recorded apps
followed by the apps of the manifest claiming it. -/
theorem vpcLoop_usage_alistLookup (apps : List AppSpec) :
    ∀ (usage : List (Nat × List String)) (issues : List PortIssue) (p : Nat),
      alistLookup (vpcLoop apps usage issues).1 p =
        if ((alistLookup usage p).isSome || !(claimants p apps).isEmpty) then
          some ((alistLookup usage p).getD [] ++ claimants p apps)
        else none := by
  induction apps with
  | nil =>
      intro usage issues p
      cases h : alistLookup usage p <;> simp [vpcLoop, claimants, h]
  | cons app rest ih =>
      intro usage issues p
      cases hap : app.appPort with
      | none =>
          simp only [vpcLoop, hap]
          rw [ih]
          have hc : claimants p (app :: rest) = claimants p rest := by
            simp [claimants, List.filterMap_cons, hap]
          rw [hc]
      | some port =>
          simp only [vpcLoop, hap]
          rw [ih]
          by_cases hpq : p = port
          · subst hpq
            have hc : claimants p (app :: rest) =
                app.appId.getD "unknown" :: claimants p rest := by
              simp [claimants, List.filterMap_cons, hap]
            rw [hc, alistLookup_assocAppend]
            simp only [if_pos rfl]
            cases h : alistLookup usage p <;> simp [h, List.append_assoc]
          · have hc : claimants p (app :: rest) = claimants p rest := by
              simp [claimants, List.filterMap_cons, hap, Ne.symm hpq]
            rw [hc, alistLookup_assocAppend]
            rw [if_neg hpq]

/-- The final `port_usage` has duplicate-free keys. -/
theorem vpcLoop_usage_nodup (apps : List AppSpec) :
    ∀ (usage : List (Nat × List String)) (issues : List PortIssue),
      (usage.map Prod.fst).Nodup → (((vpcLoop apps usage issues).1).map Prod.fst).Nodup := by
  induction apps with
  | nil => intro usage issues h; exact h
  | cons app rest ih =>
      intro usage issues h
      cases hap : app.appPort with
      | none =>
          simp only [vpcLoop, hap]
          exact ih _ _ h
      | some port =>
          simp only [vpcLoop, hap]
          exact ih _ _ (nodup_keys_assocAppend usage port _ h)

/-- A duplicate-port issue is emitted exactly for a port claimed by more
than one app, listing precisely the claiming apps in manifest order. -/
theorem duplicate_mem_validate_port_conflicts (apps : List AppSpec) (p : Nat)
    (ids : List String) :
    PortIssue.duplicate p ids ∈ validate_port_conflicts apps ↔
      (ids = claimants p apps ∧ 1 < ids.length) := by
  unfold validate_port_conflicts
  rw [List.mem_append]
  have h1 : PortIssue.duplicate p ids ∈ (vpcLoop apps [] []).2 ↔ False := by
    rw [duplicate_mem_vpcLoop]
    simp
  rw [h1]
  simp only [false_or, List.mem_map, List.mem_filter]
  have hnodup : (((vpcLoop apps [] []).1).map Prod.fst).Nodup :=
    vpcLoop_usage_nodup apps [] [] (by simp)
  have hlook : ∀ q, alistLookup (vpcLoop apps [] []).1 q =
      if !(claimants q apps).isEmpty then some (claimants q apps) else none := by
    intro q
    rw [vpcLoop_usage_alistLookup apps [] [] q]
    simp [alistLookup]
  constructor
  · rintro ⟨⟨q, qs⟩, ⟨hmem, hlen⟩, heq⟩
    simp only [PortIssue.duplicate.injEq] at heq
    obtain ⟨rfl, rfl⟩ := heq
    have hl := (mem_iff_alistLookup _ hnodup _ _).mp hmem
    rw [hlook] at hl
    simp only [decide_eq_true_eq] at hlen
    by_cases hemp : (claimants q apps).isEmpty = true
    · rw [hemp] at hl
      simp at hl
    · simp only [Bool.not_eq_true] at hemp
      rw [if_pos (by simp [hemp])] at hl
      exact ⟨(Option.some.inj hl).symm, hlen⟩
  · rintro ⟨rfl, hlen⟩
    refine ⟨(p, claimants p apps), ⟨?_, by simpa using hlen⟩, rfl⟩
    rw [mem_iff_alistLookup _ hnodup, hlook]
    have hemp : (claimants p apps).isEmpty = false := by
      cases hcl : claimants p apps with
      | nil => rw [hcl] at hlen; simp at hlen
      | cons x xs => rfl
    rw [hemp]
    simp

/-- A reserved-port issue is emitted exactly for an app whose `appPort`
lies in the reserved set. -/
theorem reserved_mem_validate_port_conflicts (apps : List AppSpec) (a : String) (p : Nat) :
    PortIssue.reserved a p ∈ validate_port_conflicts apps ↔
      ∃ app ∈ apps, app.appId.getD "unknown" = a ∧ app.appPort = some p ∧
        p ∈ RESERVED_PORTS := by
  unfold validate_port_conflicts
  rw [List.mem_append, reserved_mem_vpcLoop]
  simp

/-- No sidecar-conflict issue ever concerns the default ports 3500/50001. -/
theorem daprConflict_ports_validate (apps : List AppSpec) (a t : String) (p : Nat)
    (h : PortIssue.daprConflict a t p ∈ validate_port_conflicts apps) :
    p ≠ 3500 ∧ p ≠ 50001 := by
  unfold validate_port_conflicts at h
  rcases List.mem_append.mp h with h' | h'
  · rcases daprConflict_mem_vpcLoop apps [] [] a t p h' with h'' | h''
    · simp at h''
    · exact h''
  · simp at h'

/-! ### Chain-depth lemmas (dependency-analyzer.py) -/

theorem filter_not_mem_mono (U visited : List String) (node : String) :
    (U.filter (fun x => x ∉ node :: visited)).length ≤
      (U.filter (fun x => x ∉ visited)).length := by
  apply List.Sublist.length_le
  apply List.monotone_filter_right
  intro a ha
  simp only [decide_eq_true_eq, List.mem_cons, not_or] at ha ⊢
  exact ha.2

/-- Visiting a universe node strictly shrinks the set of unvisited
universe nodes. -/
theorem filter_not_mem_cons_lt (U : List String) (visited : List String) (node : String)
    (hnU : node ∈ U) (hnv : node ∉ visited) :
    (U.filter (fun x => x ∉ node :: visited)).length <
      (U.filter (fun x => x ∉ visited)).length := by
  induction U with
  | nil => simp at hnU
  | cons u rest ih =>
      by_cases hu : u = node
      · subst hu
        simp only [List.filter_cons]
        have c1 : (decide (u ∉ u :: visited)) = false := by simp
        have c2 : (decide (u ∉ visited)) = true := by simpa using hnv
        rw [c1, c2]
        simp only [Bool.false_eq_true, if_false, if_true, List.length_cons]
        exact Nat.lt_succ_of_le (filter_not_mem_mono rest visited u)
      · have hmem : node ∈ rest := by
          rcases List.mem_cons.mp hnU with h | h
          · exact absurd h.symm hu
          · exact h
        simp only [List.filter_cons]
        have heq : (decide (u ∉ node :: visited)) = (decide (u ∉ visited)) := by
          by_cases h2 : u ∈ visited
          · simp [h2]
          · simp [h2, hu, List.mem_cons]
        rw [heq]
        cases h2 : (decide (u ∉ visited)) with
        | false =>
            simp only [Bool.false_eq_true, if_false]
            exact ih hmem
        | true =>
            simp only [if_true, List.length_cons]
            exact Nat.succ_lt_succ (ih hmem)

/-- Fuel independence of `get_chain_depth` for nodes of the edge-target
universe: any fuel at least two past the number of unvisited universe
nodes yields the same value — the termination argument for the Python
recursion, valid on cyclic graphs and self-loops alike. -/
theorem get_chain_depth_stable (deps : String → List String) (U : List String)
    (hU : ∀ n, ∀ d ∈ deps n, d ∈ U) :
    ∀ (k : Nat) (visited : List String) (node : String), node ∈ U →
      (U.filter (fun x => x ∉ visited)).length ≤ k →
      ∀ f₁ f₂, k + 2 ≤ f₁ → k + 2 ≤ f₂ →
        get_chain_depth deps f₁ node visited = get_chain_depth deps f₂ node visited := by
  intro k
  induction k using Nat.strong_induction_on with
  | _ k ih =>
      intro visited node hnU hk f₁ f₂ h₁ h₂
      obtain ⟨g₁, rfl⟩ : ∃ m, f₁ = m + 1 := ⟨f₁ - 1, by omega⟩
      obtain ⟨g₂, rfl⟩ : ∃ m, f₂ = m + 1 := ⟨f₂ - 1, by omega⟩
      simp only [get_chain_depth]
      by_cases hv : node ∈ visited
      · rw [if_pos hv, if_pos hv]
      · rw [if_neg hv, if_neg hv]
        by_cases hd : deps node = []
        · simp [hd]
        · simp only [hd, if_false]
          congr 2
          apply List.map_congr_left
          intro d hd'
          have hlt : (U.filter (fun x => x ∉ node :: visited)).length <
              (U.filter (fun x => x ∉ visited)).length :=
            filter_not_mem_cons_lt U visited node hnU hv
          exact ih (U.filter (fun x => x ∉ node :: visited)).length
            (by omega) (node :: visited) d (hU node d hd') (le_refl _) g₁ g₂
            (by omega) (by omega)

/-- Fuel independence of `get_chain_depth` from an empty visited set, for
an arbitrary start node. -/
theorem get_chain_depth_fuel_indep (deps : String → List String) (U : List String)
    (hU : ∀ n, ∀ d ∈ deps n, d ∈ U) (node : String) (f₁ f₂ : Nat)
    (h₁ : U.length + 3 ≤ f₁) (h₂ : U.length + 3 ≤ f₂) :
    get_chain_depth deps f₁ node [] = get_chain_depth deps f₂ node [] := by
  have hfl : ∀ v : List String, (U.filter (fun x => x ∉ v)).length ≤ U.length :=
    fun v => List.length_filter_le _ _
  by_cases hnU : node ∈ U
  · exact get_chain_depth_stable deps U hU U.length [] node hnU (hfl [])
      f₁ f₂ (by omega) (by omega)
  · obtain ⟨g₁, rfl⟩ : ∃ m, f₁ = m + 1 := ⟨f₁ - 1, by omega⟩
    obtain ⟨g₂, rfl⟩ : ∃ m, f₂ = m + 1 := ⟨f₂ - 1, by omega⟩
    simp only [get_chain_depth]
    rw [if_neg (List.not_mem_nil node), if_neg (List.not_mem_nil node)]
    by_cases hd : deps node = []
    · simp [hd]
    · simp only [hd, if_false]
      congr 2
      apply List.map_congr_left
      intro d hd'
      exact get_chain_depth_stable deps U hU U.length [node] d (hU node d hd')
        (hfl [node]) g₁ g₂ (by omega) (by omega)

/-- A node with no outgoing edges has chain depth exactly 1. -/
theorem get_chain_depth_no_deps (deps : String → List String) (node : String)
    (fuel : Nat) (hd : deps node = []) (hf : 0 < fuel) :
    get_chain_depth deps fuel node [] = 1 := by
  obtain ⟨g, rfl⟩ : ∃ m, fuel = m + 1 := ⟨fuel - 1, by omega⟩
  simp [get_chain_depth, hd]

/-- A `deep_dependency_chain` warning appears for node `n` iff its
computed chain depth exceeds 3, and it records that depth. -/
theorem mem_analyze_component_chains (nodes : List String)
    (deps : String → List String) (fuel : Nat) (f : Finding) :
    f ∈ analyze_component_chains nodes deps fuel ↔
      ∃ n ∈ nodes, 3 < get_chain_depth deps fuel n [] ∧
        f = deepChainFinding n (get_chain_depth deps fuel n []) := by
  unfold analyze_component_chains
  rw [List.mem_filterMap]
  constructor
  · rintro ⟨⟨n, d⟩, hmem, hsome⟩
    obtain ⟨n', hn', heq⟩ := List.mem_map.mp hmem
    obtain ⟨rfl, rfl⟩ := Prod.mk.injEq .. ▸ heq
    by_cases hgt : 3 < get_chain_depth deps fuel n' []
    · rw [if_pos hgt] at hsome
      exact ⟨n', hn', hgt, (Option.some.inj hsome).symm⟩
    · rw [if_neg hgt] at hsome
      cases hsome
  · rintro ⟨n, hn, hgt, rfl⟩
    exact ⟨(n, get_chain_depth deps fuel n []),
      List.mem_map.mpr ⟨n, hn, rfl⟩, by rw [if_pos hgt]⟩

/-- Edge targets drawn from an association-list graph stay inside the list
of all recorded targets. -/
theorem adjOf_targets (l : List (String × List String)) (U : List String)
    (h : ∀ p ∈ l, ∀ d ∈ p.2, d ∈ U) : ∀ n, ∀ d ∈ adjOf l n, d ∈ U := by
  intro n d hd
  unfold adjOf at hd
  cases hf : l.find? (fun p => p.1 == n) with
  | none => rw [hf] at hd; simp at hd
  | some p =>
      rw [hf] at hd
      exact h p (List.mem_of_find?_eq_some hf) d hd

/-! ### Claim theorems -/

/-- C1: refuted by the code. `_build_dependency_graph` adds a `secret-ref`
edge from `app-db` to `store-one` although no metadata entry of `app-db`
references `store-one` (its only reference names `vault`): the inner loop
fans out to every discovered secret store, ignoring the reference. -/
theorem C1_fanout_edge_without_reference :
    ("app-db", "store-one") ∈ buildDependencyGraph fanoutComps ∧
    ∀ c ∈ fanoutComps, c.name = "app-db" → "store-one" ∉ c.secret_refs := by
  decide

/-- C2: refuted by the code. On a graph containing a 2-cycle and a 3-cycle
that share the node `a`, `_detect_circular_dependencies` records the first
cycle, skips the recursion-stack cleanup on early return, and then raises
an uncaught `ValueError` from `path.index` while visiting the remaining
nodes — so no `circular_dependency` finding at all is emitted, not one per
cycle. -/
theorem C2_overlapping_cycles_crash :
    detect_circular_dependencies overlapNodes (adjOf overlapAdj) = .error "ValueError" := by
  rfl

/-- C3: refuted by the code. A metadata entry named `clientId` carrying a
plain populated value is not flagged by `validate_secret_handling`: the
pattern list keeps camel-case entries (`clientId`, `connectionString`) but
is matched against the lowercased entry name, so those patterns can never
fire. -/
theorem C3_clientId_not_flagged :
    validate_secret_handling [{ name := "clientId", value := some "abc123" }] = [] := by
  rfl

/-- C7: refuted by the code. On a well-formed three-component project the
analysis pipeline raises an uncaught `ValueError` inside
`_detect_circular_dependencies`, so an exception does propagate past the
analyzer's top frame on some input configuration trees. -/
theorem C7_analyzer_raises_valueerror :
    analyzeGraphPhase crashComps = .error "ValueError" := by
  rfl

/-- With no secret store in the project, the loop of
`_validate_secret_references` turns every non-store component carrying
secret references into a `missing_secret_store` error and emits no
warnings. -/
theorem vsrLoop_true (l : List Component) :
    vsrLoop true l =
      ((l.filter (fun c => !(isSecretStore c) && !(c.secret_refs.isEmpty))).map
        (fun c => { ftype := "missing_secret_store", severity := "error",
                    component := c.name }), []) := by
  induction l with
  | nil => rfl
  | cons c rest ih =>
      cases hs : isSecretStore c <;> cases hr : c.secret_refs.isEmpty <;>
        simp [vsrLoop, ih, List.filter_cons, hs, hr]

/-- With at least one secret store in the project, the loop of
`_validate_secret_references` emits no error and one `secret_ref_check`
warning per non-store component carrying secret references. -/
theorem vsrLoop_false (l : List Component) :
    vsrLoop false l =
      ([], (l.filter (fun c => !(isSecretStore c) && !(c.secret_refs.isEmpty))).map
        (fun c => { ftype := "secret_ref_check", component := c.name,
                    secrets := c.secret_refs })) := by
  induction l with
  | nil => rfl
  | cons c rest ih =>
      cases hs : isSecretStore c <;> cases hr : c.secret_refs.isEmpty <;>
        simp [vsrLoop, ih, List.filter_cons, hs, hr]

/-- C4 counterexample: the claim fails on the code. In a project holding
the secret store `vault` and the component `db` whose only secret
reference names the non-existent store `other-vault`,
`_validate_secret_references` emits no severity-error finding at all (the
reference merely yields a `secret_ref_check` warning), although
`other-vault` is not among the project's secret stores. -/
theorem C4_dangling_reference_no_error :
    (validate_secret_references danglingComps).1 = [] ∧
    "other-vault" ∉ secretStoreNames danglingComps ∧
    ∃ c ∈ danglingComps, "other-vault" ∈ c.secret_refs := by
  decide

/-- C4 as amended: `missing_secret_store` severity-error findings are
emitted exactly for the non-store components carrying secret references
when the project has zero secret stores; when at least one secret store
exists, those components instead receive a `secret_ref_check` warning, and
no per-reference store-name check is performed. -/
theorem C4_missing_store_error_characterization (components : List Component) :
    (validate_secret_references components).1 =
      (if (secretStoreNames components).isEmpty then
        (components.filter (fun c => !(isSecretStore c) && !(c.secret_refs.isEmpty))).map
          (fun c => { ftype := "missing_secret_store", severity := "error",
                      component := c.name })
       else []) ∧
    (validate_secret_references components).2 =
      (if (secretStoreNames components).isEmpty then []
       else (components.filter (fun c => !(isSecretStore c) && !(c.secret_refs.isEmpty))).map
          (fun c => { ftype := "secret_ref_check", component := c.name,
                      secrets := c.secret_refs })) := by
  unfold validate_secret_references
  cases he : (secretStoreNames components).isEmpty <;>
    simp [vsrLoop_true, vsrLoop_false, he]

/-- Looking up the just-assigned key of a dict whose key set already
contained it yields the new value. -/
theorem alistLookup_map_update {α β : Type} [BEq α] [LawfulBEq α]
    (m : List (α × β)) (k : α) (v : β) (h : m.any (fun p => p.1 == k) = true) :
    alistLookup (m.map (fun p => if p.1 == k then (k, v) else p)) k = some v := by
  induction m with
  | nil => simp at h
  | cons p rest ih =>
      simp only [List.map_cons]
      cases hp : p.1 == k with
      | true => simp [alistLookup]
      | false =>
          simp only [List.any_cons, hp, Bool.false_or] at h
          simp [alistLookup, hp, ih h]

/-- Looking up a freshly appended key of a dict that did not contain it
yields the new value. -/
theorem alistLookup_append_new {α β : Type} [BEq α] [LawfulBEq α]
    (m : List (α × β)) (k : α) (v : β) (h : m.any (fun p => p.1 == k) = false) :
    alistLookup (m ++ [(k, v)]) k = some v := by
  induction m with
  | nil => simp [alistLookup]
  | cons p rest ih =>
      simp only [List.any_cons, Bool.or_eq_false_iff] at h
      simp [alistLookup, h.1, ih h.2]

/-- Dict assignment followed by lookup of the same key yields the assigned
value. -/
theorem alistLookup_dictInsert {α β : Type} [BEq α] [LawfulBEq α]
    (m : List (α × β)) (k : α) (v : β) :
    alistLookup (dictInsert m k v) k = some v := by
  unfold dictInsert
  cases h : m.any (fun p => p.1 == k) with
  | true => simp [alistLookup_map_update m k v h]
  | false => simp [alistLookup_append_new m k v h]

/-- C5 counterexample: the claim fails on the code. Parsing two component
files that both name `store` leaves a single component in the project —
the second one — and produces no finding of any severity. -/
theorem C5_duplicate_name_silent_overwrite :
    (parse_component_file (parse_component_file ⟨[], []⟩ dupFileA) dupFileB).components
      = [("store", { name := "store", component_type := "pubsub.redis" })] ∧
    (parse_component_file (parse_component_file ⟨[], []⟩ dupFileA) dupFileB).warnings
      = [] := by
  decide

/-- C5 as amended: when two well-formed component files parse to the same
non-empty name, the parse stage emits no finding and the second definition
replaces the first in the project dict. -/
theorem C5_second_definition_wins (st : AnalyzerState) (c₁ c₂ : RawComponent)
    (n : String) (h₁ : c₁.kind = some "Component") (h₂ : c₂.kind = some "Component")
    (hn₁ : c₁.name = some n) (hn₂ : c₂.name = some n) (hne : n ≠ "") :
    (parse_component_file (parse_component_file st c₁) c₂).warnings = st.warnings ∧
    alistLookup (parse_component_file (parse_component_file st c₁) c₂).components n
      = some (builtComponent c₂ n) := by
  have hb : ∀ c : RawComponent, c.kind = some "Component" →
      (c.kind != some "Component") = false := by
    intro c hc; simp [hc]
  have hnn : (n == "") = false := by simpa using hne
  unfold parse_component_file
  simp only [hb c₁ h₁, hb c₂ h₂, hn₁, hn₂, Option.getD_some, hnn, Bool.false_eq_true,
    if_false]
  exact ⟨by trivial, alistLookup_dictInsert _ n _⟩

/-- Closed instance of `C5_second_definition_wins` at the two concrete
`store` files. -/
theorem C5_second_definition_wins_witness :
    (parse_component_file (parse_component_file ⟨[], []⟩ dupFileA) dupFileB).warnings
        = [] ∧
    alistLookup (parse_component_file (parse_component_file ⟨[], []⟩ dupFileA)
        dupFileB).components "store" = some (builtComponent dupFileB "store") := by
  exact C5_second_definition_wins ⟨[], []⟩ dupFileA dupFileB "store" rfl rfl rfl rfl
    (by decide)

/-- C6 counterexample: the claim fails on the code. A `validate-config.py`
run on a manifest with a duplicated `appId` collects a severity-error
finding and exits 1 although no strict mode exists for that script —
contradicting that error findings without strict mode exit 0. -/
theorem C6_validate_config_exits_1_without_strict :
    validate_config_exit_code (validate_dapr_yaml dupIdYaml) = 1 ∧
    (validate_dapr_yaml dupIdYaml).any (fun e => e.severity == "error") = true := by
  decide

/-- C6 as amended: `dependency-analyzer.py` exits 1 iff `--strict` is set
and an issue exists or, with `--warnings-as-errors`, a warning exists;
`validate-config.py`, which has no strict flag, exits 1 iff any collected
finding has severity `error`. -/
theorem C6_exit_code_characterization (strict wae : Bool)
    (issues warnings : List Finding) (es : List ValidationError) :
    (analyzer_exit_code strict wae issues warnings = 1 ↔
      strict = true ∧ (issues ≠ [] ∨ (wae = true ∧ warnings ≠ []))) ∧
    (validate_config_exit_code es = 1 ↔ ∃ e ∈ es, e.severity = "error") := by
  constructor
  · cases strict <;> cases wae <;> cases issues <;> cases warnings <;>
      simp [analyzer_exit_code]
  · have key : ∀ l : List ValidationError,
        (l.filter (fun e => e.severity == "error")).isEmpty = true ↔
          ¬ ∃ e ∈ l, e.severity = "error" := by
      intro l
      induction l with
      | nil => simp
      | cons e rest ih =>
          by_cases h : e.severity = "error" <;>
            simp [List.filter_cons, h, ih]
    unfold validate_config_exit_code
    by_cases h : (es.filter (fun e => e.severity == "error")).isEmpty = true
    · simp [h, (key es).mp h]
    · simp [h]
      exact not_not.mp (fun hc => h ((key es).mpr hc))

/-- C8 counterexample: the claim fails on the code. `parse_memory` has no
branch for a bare `K` suffix, so `1K` falls through to the plain-number
branch, fails `float()`, and records 0 rather than 1024 bytes; and a plain
`512` is treated as 512 GiB, which exceeds the 8 GiB container-apps limit
and produces a quota finding. -/
theorem C8_plain_number_is_gib :
    parse_memory "1K" = .ok 0 ∧
    validate_resource_quotas [bigApp] "container-apps"
      = .ok [QuotaIssue.mk "memory_exceeds_limit" "big"] := by
  have hm : parse_memory "512" = .ok ((1 : ℚ) * ((512 : Nat) : ℚ)) := rfl
  refine ⟨rfl, ?_⟩
  simp only [validate_resource_quotas, vrqLoop, bigApp, platformCpuMax,
    platformMemMaxGi, platformMaxReplicas]
  rw [hm]
  simp only [Except.map, show (("512" : String) == "") = false from rfl,
    show (("container-apps" : String) == "container-apps") = true from rfl]
  norm_num

/-- C8 as amended: the accepted suffixes are `Ki`, `Mi`, `Gi`, `M`, `G`
(there is no bare `K` branch), the result is in GiB, a plain number is
interpreted as GiB, a plain non-numeric value silently records zero, an
invalid value carrying a recognized suffix raises `ValueError`, and a
memory request within the limit yields no quota finding. -/
theorem C8_memory_suffix_semantics :
    parse_memory "1Gi" = .ok 1 ∧
    parse_memory "512Mi" = .ok (1 / 2) ∧
    parse_memory "1024Ki" = .ok (1 / 1024) ∧
    parse_memory "2G" = .ok 2 ∧
    parse_memory "2048M" = .ok 2 ∧
    parse_memory "1.5Gi" = .ok (3 / 2) ∧
    parse_memory "notanumber" = .ok 0 ∧
    parse_memory "abcGi" = .error "ValueError" ∧
    validate_resource_quotas [{ appId := some "ok-app", memory := "512Mi" }]
      "container-apps" = .ok [] := by
  have h1 : parse_memory "1Gi" = .ok ((1 : ℚ) * ((1 : Nat) : ℚ)) := rfl
  have h2 : parse_memory "512Mi" = .ok ((1 : ℚ) * ((512 : Nat) : ℚ) / 1024) := rfl
  have h3 : parse_memory "1024Ki" =
      .ok ((1 : ℚ) * ((1024 : Nat) : ℚ) / (1024 * 1024)) := rfl
  have h4 : parse_memory "2G" = .ok ((1 : ℚ) * ((2 : Nat) : ℚ)) := rfl
  have h5 : parse_memory "2048M" = .ok ((1 : ℚ) * ((2048 : Nat) : ℚ) / 1024) := rfl
  have h6 : parse_memory "1.5Gi" =
      .ok ((1 : ℚ) * (((1 : Nat) : ℚ) + ((5 : Nat) : ℚ) / (10 : ℚ) ^ (1 : Nat))) := rfl
  refine ⟨?_, ?_, ?_, ?_, ?_, ?_, rfl, rfl, ?_⟩
  · rw [h1]; norm_num
  · rw [h2]; norm_num
  · rw [h3]; norm_num
  · rw [h4]; norm_num
  · rw [h5]; norm_num
  · rw [h6]; norm_num
  · simp only [validate_resource_quotas, vrqLoop, platformCpuMax,
      platformMemMaxGi, platformMaxReplicas]
    rw [h2]
    simp only [Except.map, show (("512Mi" : String) == "") = false from rfl,
      show (("container-apps" : String) == "container-apps") = true from rfl]
    norm_num

/-- C9 counterexample: the claim fails on the code. On a manifest with
`svc-a` and `svc-b` both claiming `appPort` 8080, the only duplicate-port
finding `validate-config.py` produces carries severity `warning`, not
`error`, and no finding of severity `error` exists; no `port_conflict`
category exists in the code. -/
theorem C9_duplicate_port_is_warning :
    (validate_dapr_yaml conflictYaml).filter (fun e => e.tag == "duplicate_port")
      = [ValidationError.mk "dapr.yaml" "duplicate_port" "warning" 8080] ∧
    ∀ e ∈ validate_dapr_yaml conflictYaml, e.severity ≠ "error" := by
  decide

/-- C9 as amended: in the validators module, a duplicate-port issue is
emitted exactly for every `appPort` claimed by more than one app, listing
precisely the claiming apps; a reserved-port issue is emitted exactly for
an app whose `appPort` lies in {3500, 50001, 9090, 8080, 8443}; a
sidecar-port conflict issue never concerns the default sidecar ports 3500
and 50001; and `validate-config.py` reports a duplicated `appPort` as a
severity-warning finding. -/
theorem C9_port_conflict_characterization :
    (∀ (apps : List AppSpec) (p : Nat) (ids : List String),
        PortIssue.duplicate p ids ∈ validate_port_conflicts apps ↔
          (ids = claimants p apps ∧ 1 < ids.length)) ∧
    (∀ (apps : List AppSpec) (a : String) (p : Nat),
        PortIssue.reserved a p ∈ validate_port_conflicts apps ↔
          ∃ app ∈ apps, app.appId.getD "unknown" = a ∧ app.appPort = some p ∧
            p ∈ RESERVED_PORTS) ∧
    (∀ (apps : List AppSpec) (a t : String) (p : Nat),
        PortIssue.daprConflict a t p ∈ validate_port_conflicts apps →
          p ≠ 3500 ∧ p ≠ 50001) ∧
    ((validate_dapr_yaml dupPortYaml).filter (fun e => e.tag == "duplicate_port")
      = [ValidationError.mk "dapr.yaml" "duplicate_port" "warning" 9999]) := by
  refine ⟨duplicate_mem_validate_port_conflicts,
    reserved_mem_validate_port_conflicts, daprConflict_ports_validate, by decide⟩

/-- Closed instance of `C9_port_conflict_characterization`: the two apps on
port 9999 yield the duplicate-port issue listing both, reserved-port issues
appear for `svc-a` on 8080, and a sidecar-conflict issue on 7001 concerns
neither default port. -/
theorem C9_port_conflict_characterization_witness :
    PortIssue.duplicate 9999 ["svc-a", "svc-b"] ∈ validate_port_conflicts dupPortApps ∧
    PortIssue.reserved "svc-a" 8080 ∈ validate_port_conflicts conflictApps ∧
    ((7001 : Nat) ≠ 3500 ∧ (7001 : Nat) ≠ 50001) := by
  refine ⟨?_, ?_, ?_⟩
  · exact (C9_port_conflict_characterization.1 dupPortApps 9999 ["svc-a", "svc-b"]).mpr
      (by decide)
  · exact (C9_port_conflict_characterization.2.1 conflictApps "svc-a" 8080).mpr
      (by decide)
  · exact C9_port_conflict_characterization.2.2.1 dconfApps "app-b" "daprHTTPPort" 7001
      (by decide)

/-- C10: confirmed. For every finite dependency graph — cyclic graphs and
self-loops included — the chain-depth computation terminates (any two
sufficiently large recursion-depth bounds agree, because each recursive
step extends the visited set); a node with no outgoing edges has chain
depth exactly 1; and `_analyze_component_chains` emits a
`deep_dependency_chain` warning for a node iff its computed depth is
strictly greater than 3. -/
theorem C10_chain_depth_behavior (deps : String → List String) (U : List String)
    (hU : ∀ n, ∀ d ∈ deps n, d ∈ U) :
    (∀ node f₁ f₂, U.length + 3 ≤ f₁ → U.length + 3 ≤ f₂ →
        get_chain_depth deps f₁ node [] = get_chain_depth deps f₂ node []) ∧
    (∀ node fuel, deps node = [] → 0 < fuel →
        get_chain_depth deps fuel node [] = 1) ∧
    (∀ nodes fuel f, f ∈ analyze_component_chains nodes deps fuel ↔
        ∃ n ∈ nodes, 3 < get_chain_depth deps fuel n [] ∧
          f = deepChainFinding n (get_chain_depth deps fuel n [])) := by
  exact ⟨fun node f₁ f₂ h₁ h₂ => get_chain_depth_fuel_indep deps U hU node f₁ f₂ h₁ h₂,
    fun node fuel hd hf => get_chain_depth_no_deps deps node fuel hd hf,
    fun nodes fuel f => mem_analyze_component_chains nodes deps fuel f⟩

/-- Closed instance of `C10_chain_depth_behavior` on a concrete graph with
a self-loop and a 2-cycle: the depth of `w-a` is fuel independent and the
sink `w-leaf` has depth 1. -/
theorem C10_chain_depth_behavior_witness :
    get_chain_depth (adjOf chainAdjW) 6 "w-a" []
      = get_chain_depth (adjOf chainAdjW) 7 "w-a" [] ∧
    get_chain_depth (adjOf chainAdjW) 6 "w-leaf" [] = 1 := by
  have h := C10_chain_depth_behavior (adjOf chainAdjW) chainUnivW
    (adjOf_targets chainAdjW chainUnivW (by decide))
  exact ⟨h.1 "w-a" 6 7 (by decide) (by decide), h.2.1 "w-leaf" 6 (by decide) (by decide)⟩
